import Mathlib

/-!
Shallow embedding of `models/layers.py` (PTFN repository).

Feature maps are modelled as 4-D real tensors in (batch, channel, height,
width) layout.  A `Tensor` carries its shape and a total data function;
entries outside the declared shape are unobservable junk, so tensor
equality as observed by the framework is shape equality plus pointwise
equality on in-range indices (`Tensor.teq`).

PyTorch broadcasting between two dimensions requires them to be equal or
one of them to be `1`; the broadcast size is the other dimension and a
size-`1` dimension is always read at index `0`.

Dropout layers are constructed as `nn.Identity` when `drop_out_rate = 0`
(the default); the embedding models that inactive-dropout configuration.
-/

/-- A 4-D feature map: shape fields plus a total data function. -/
structure Tensor where
  n : ℕ
  c : ℕ
  h : ℕ
  w : ℕ
  data : ℕ → ℕ → ℕ → ℕ → ℝ

/-- Broadcast size of two dimensions (equal-or-one rule): a size-1
dimension adopts the other size. -/
def bdim (a b : ℕ) : ℕ := if a = 1 then b else a

/-- Index selection under broadcasting: a size-1 dimension is read at 0. -/
def bidx (size i : ℕ) : ℕ := if size = 1 then 0 else i

/-- Elementwise addition with PyTorch broadcasting. -/
def Tensor.add (a b : Tensor) : Tensor :=
  ⟨bdim a.n b.n, bdim a.c b.c, bdim a.h b.h, bdim a.w b.w,
   fun i j k l =>
     a.data (bidx a.n i) (bidx a.c j) (bidx a.h k) (bidx a.w l) +
     b.data (bidx b.n i) (bidx b.c j) (bidx b.h k) (bidx b.w l)⟩

/-- Elementwise multiplication with PyTorch broadcasting. -/
def Tensor.mul (a b : Tensor) : Tensor :=
  ⟨bdim a.n b.n, bdim a.c b.c, bdim a.h b.h, bdim a.w b.w,
   fun i j k l =>
     a.data (bidx a.n i) (bidx a.c j) (bidx a.h k) (bidx a.w l) *
     b.data (bidx b.n i) (bidx b.c j) (bidx b.h k) (bidx b.w l)⟩

/-- `torch.zeros((n, c, h, w))`. -/
def Tensor.zeros (n c h w : ℕ) : Tensor := ⟨n, c, h, w, fun _ _ _ _ => 0⟩

/-- Channel slice `x[:, lo:hi, :, :]`. -/
def Tensor.sliceC (x : Tensor) (lo hi : ℕ) : Tensor :=
  ⟨x.n, hi - lo, x.h, x.w, fun i j k l => x.data i (lo + j) k l⟩

/-- `torch.cat([a, b, c], dim=1)`. -/
def Tensor.cat3 (a b c : Tensor) : Tensor :=
  ⟨a.n, a.c + b.c + c.c, a.h, a.w,
   fun i j k l =>
     if j < a.c then a.data i j k l
     else if j < a.c + b.c then b.data i (j - a.c) k l
     else c.data i (j - a.c - b.c) k l⟩

/-- Same declared shape. -/
def Tensor.sameShape (a b : Tensor) : Prop :=
  a.n = b.n ∧ a.c = b.c ∧ a.h = b.h ∧ a.w = b.w

/-- Observable tensor equality: same shape, same data on in-range indices. -/
def Tensor.teq (a b : Tensor) : Prop :=
  a.sameShape b ∧
  ∀ i j k l, i < a.n → j < a.c → k < a.h → l < a.w →
    a.data i j k l = b.data i j k l

/-- Reading a zero-padded tensor: `p` rings of zeros around the spatial
extent, so spatial position `(k, l)` of the padded map reads
`(k - p, l - p)` of `x` when that is in range and `0` otherwise. -/
def Tensor.padded (x : Tensor) (p i cc k l : ℕ) : ℝ :=
  if p ≤ k ∧ k < x.h + p ∧ p ≤ l ∧ l < x.w + p then
    x.data i cc (k - p) (l - p)
  else 0

/-- `nn.Conv2d(Ci, Co, kernel_size=k, padding=p, stride=1, groups=g)`:
output spatial size is `h + 2p - k + 1`, each output channel `oc` reads
the `Ci / g` input channels of its group. -/
def conv2d (weight : ℕ → ℕ → ℕ → ℕ → ℝ) (bias : ℕ → ℝ)
    (Ci Co k p g : ℕ) (x : Tensor) : Tensor :=
  ⟨x.n, Co, x.h + 2 * p + 1 - k, x.w + 2 * p + 1 - k,
   fun i oc r s =>
     bias oc +
       ∑ ic ∈ Finset.range (Ci / g), ∑ ki ∈ Finset.range k, ∑ kj ∈ Finset.range k,
         weight oc ic ki kj *
           x.padded p i (oc / (Co / g) * (Ci / g) + ic) (r + ki) (s + kj)⟩

/-- `nn.AdaptiveAvgPool2d(1)`: global spatial mean per (batch, channel). -/
noncomputable def adaptiveAvgPool1 (x : Tensor) : Tensor :=
  ⟨x.n, x.c, 1, 1,
   fun i j _ _ => (∑ k ∈ Finset.range x.h, ∑ l ∈ Finset.range x.w, x.data i j k l) / (x.h * x.w)⟩

namespace LayerNormFunction

/-- `x.mean(1, keepdim=True)` at position `(i, ·, k, l)`. -/
noncomputable def mu (x : Tensor) (i k l : ℕ) : ℝ :=
  (∑ j ∈ Finset.range x.c, x.data i j k l) / x.c

/-- `(x - mu).pow(2).mean(1, keepdim=True)` at position `(i, ·, k, l)`. -/
noncomputable def variance (x : Tensor) (i k l : ℕ) : ℝ :=
  (∑ j ∈ Finset.range x.c, (x.data i j k l - mu x i k l) ^ 2) / x.c

/-- The intermediate `y = (x - mu) / (var + eps).sqrt()` computed in
`LayerNormFunction.forward` before the learned affine scale and shift. -/
noncomputable def normalized (x : Tensor) (eps : ℝ) : Tensor :=
  ⟨x.n, x.c, x.h, x.w,
   fun i j k l => (x.data i j k l - mu x i k l) / Real.sqrt (variance x i k l + eps)⟩

/-- `LayerNormFunction.forward`: normalize over channels, then apply the
per-channel affine `weight.view(1, C, 1, 1) * y + bias.view(1, C, 1, 1)`. -/
noncomputable def forward (x : Tensor) (weight bias : ℕ → ℝ) (eps : ℝ) : Tensor :=
  ⟨x.n, x.c, x.h, x.w,
   fun i j k l => weight j * (normalized x eps).data i j k l + bias j⟩

end LayerNormFunction

/-- `LayerNorm2d`: per-channel learned scale and shift around
`LayerNormFunction`. -/
structure LayerNorm2d where
  weight : ℕ → ℝ
  bias : ℕ → ℝ
  eps : ℝ

noncomputable def LayerNorm2d.forward (m : LayerNorm2d) (x : Tensor) : Tensor :=
  LayerNormFunction.forward x m.weight m.bias m.eps

namespace SimpleGate

/-- `SimpleGate.forward`: `x.chunk(2, dim=1)` splits channels into a first
chunk of size `⌈c/2⌉` and a second of size `⌊c/2⌋`; the halves are
multiplied elementwise. -/
def forward (x : Tensor) : Tensor :=
  Tensor.mul (x.sliceC 0 ((x.c + 1) / 2)) (x.sliceC ((x.c + 1) / 2) x.c)

end SimpleGate

/-- `MemSkip`: a module holding a plain Python list, pushed at the front
and popped at the back. -/
structure MemSkip (α : Type) where
  mem_list : List α

def MemSkip.empty {α : Type} : MemSkip α := ⟨[]⟩

/-- `MemSkip.push`: `insert(0, x)` prepends when `x` is present and
returns 1; on `None` it returns 0 and leaves the list alone. -/
def MemSkip.push {α : Type} (m : MemSkip α) (x : Option α) : ℕ × MemSkip α :=
  match x with
  | some v => (1, ⟨v :: m.mem_list⟩)
  | none => (0, m)

/-- `MemSkip.pop`: on a present argument, `list.pop()` removes and returns
the LAST element (an `IndexError` on an empty list); on `None` it returns
`None` and leaves the list alone. -/
def MemSkip.pop {α : Type} (m : MemSkip α) (x : Option α) :
    Except String (Option α) × MemSkip α :=
  match x with
  | some _ =>
    match m.mem_list.getLast? with
    | some v => (.ok (some v), ⟨m.mem_list.dropLast⟩)
    | none => (.error "IndexError: pop from empty list", m)
  | none => (.ok none, m)

/-- Push a whole list of present values, in order. -/
def MemSkip.pushAll {α : Type} (m : MemSkip α) (xs : List α) : MemSkip α :=
  xs.foldl (fun acc x => (acc.push (some x)).2) m

/-- Pop `k` times with a present argument, collecting the results. -/
def MemSkip.popN {α : Type} (m : MemSkip α) (probe : α) :
    ℕ → List (Except String (Option α)) × MemSkip α
  | 0 => ([], m)
  | Nat.succ k =>
    let (r, m1) := m.pop (some probe)
    let (rs, m2) := m1.popN probe k
    (r :: rs, m2)

/-- `TemporalShift`: `shift_type` only matters through whether it contains
the substring `'toFutureOnly'`, modelled by the Boolean field
`toFutureOnly`. -/
structure TemporalShift where
  n_segment : ℕ
  toFutureOnly : Bool
  fold_div : ℕ
  stride : ℕ

/-- `TemporalShift.forward`: view `(nt, c, h, w)` as
`(nt / n_segment, n_segment, c, h, w)` (flat time index `t` has segment
position `t % n_segment`), zero-fill, then copy shifted channel folds.
In the bidirectional branch the first `fold` channels shift backward in
time and the second `fold` channels shift forward; in the
`toFutureOnly` branch the first `2*fold` channels shift forward; the
remaining channels are copied unshifted. -/
def TemporalShift.forward (m : TemporalShift) (x : Tensor) : Tensor :=
  let fold := x.c / m.fold_div
  ⟨x.n, x.c, x.h, x.w,
   fun t j k l =>
     let s := t % m.n_segment
     if m.toFutureOnly then
       if j < 2 * fold then
         if m.stride ≤ s then x.data (t - m.stride) j k l else 0
       else x.data t j k l
     else
       if j < fold then
         if s + m.stride < m.n_segment then x.data (t + m.stride) j k l else 0
       else if j < 2 * fold then
         if m.stride ≤ s then x.data (t - m.stride) j k l else 0
       else x.data t j k l⟩

/-- Parameters of `NAFBlock`: the five 1x1/3x3 convolutions, the
channel-attention convolution, the two layer norms and the two learned
residual scalars `beta`/`gamma` (stored per-channel, shape `(1, c, 1, 1)`). -/
structure NAFBlock where
  c : ℕ
  DW_Expand : ℕ
  FFN_Expand : ℕ
  conv1w : ℕ → ℕ → ℕ → ℕ → ℝ
  conv1b : ℕ → ℝ
  conv2w : ℕ → ℕ → ℕ → ℕ → ℝ
  conv2b : ℕ → ℝ
  conv3w : ℕ → ℕ → ℕ → ℕ → ℝ
  conv3b : ℕ → ℝ
  scaw : ℕ → ℕ → ℕ → ℕ → ℝ
  scab : ℕ → ℝ
  conv4w : ℕ → ℕ → ℕ → ℕ → ℝ
  conv4b : ℕ → ℝ
  conv5w : ℕ → ℕ → ℕ → ℕ → ℝ
  conv5b : ℕ → ℝ
  norm1 : LayerNorm2d
  norm2 : LayerNorm2d
  beta : ℕ → ℝ
  gamma : ℕ → ℝ

/-- A per-channel parameter of shape `(1, c, 1, 1)` as a tensor. -/
def chanParam (c : ℕ) (f : ℕ → ℝ) : Tensor := ⟨1, c, 1, 1, fun _ j _ _ => f j⟩

/-- `NAFBlock.forward`. -/
noncomputable def NAFBlock.forward (blk : NAFBlock) (inp : Tensor) : Tensor :=
  let dw := blk.c * blk.DW_Expand
  let ffn := blk.FFN_Expand * blk.c
  let x := blk.norm1.forward inp
  let x := conv2d blk.conv1w blk.conv1b blk.c dw 1 0 1 x
  let x := conv2d blk.conv2w blk.conv2b dw dw 3 1 dw x
  let x := SimpleGate.forward x
  let x := Tensor.mul x (conv2d blk.scaw blk.scab (dw / 2) (dw / 2) 1 0 1 (adaptiveAvgPool1 x))
  let x := conv2d blk.conv3w blk.conv3b (dw / 2) blk.c 1 0 1 x
  let y := Tensor.add inp (Tensor.mul x (chanParam blk.c blk.beta))
  let x := conv2d blk.conv4w blk.conv4b blk.c ffn 1 0 1 (blk.norm2.forward y)
  let x := SimpleGate.forward x
  let x := conv2d blk.conv5w blk.conv5b (ffn / 2) blk.c 1 0 1 x
  Tensor.add y (Tensor.mul x (chanParam blk.c blk.gamma))

/-- The composite input assembled by the `Shift*` blocks
(`fold_div = 8`, `fold = c // fold_div` with `c` the center's channels):
`torch.cat([right[:, :fold], left_fold_2fold, center[:, 2*fold:]], dim=1)`. -/
def assembleInp (left_fold_2fold center right : Tensor) : Tensor :=
  let fold := center.c / 8
  Tensor.cat3 (right.sliceC 0 fold) left_fold_2fold (center.sliceC (2 * fold) center.c)

/-- Parameters of `ShiftNAFBlock` (identical layer stack to `NAFBlock`). -/
structure ShiftNAFBlock where
  c : ℕ
  DW_Expand : ℕ
  FFN_Expand : ℕ
  conv1w : ℕ → ℕ → ℕ → ℕ → ℝ
  conv1b : ℕ → ℝ
  conv2w : ℕ → ℕ → ℕ → ℕ → ℝ
  conv2b : ℕ → ℝ
  conv3w : ℕ → ℕ → ℕ → ℕ → ℝ
  conv3b : ℕ → ℝ
  scaw : ℕ → ℕ → ℕ → ℕ → ℝ
  scab : ℕ → ℝ
  conv4w : ℕ → ℕ → ℕ → ℕ → ℝ
  conv4b : ℕ → ℝ
  conv5w : ℕ → ℕ → ℕ → ℕ → ℝ
  conv5b : ℕ → ℝ
  norm1 : LayerNorm2d
  norm2 : LayerNorm2d
  beta : ℕ → ℝ
  gamma : ℕ → ℝ

/-- `ShiftNAFBlock.forward`: assemble the composite input from the three
frame slices, then run the NAFNet-style stack on it. -/
noncomputable def ShiftNAFBlock.forward (blk : ShiftNAFBlock)
    (left_fold_2fold center right : Tensor) : Tensor :=
  let dw := blk.c * blk.DW_Expand
  let ffn := blk.FFN_Expand * blk.c
  let inp := assembleInp left_fold_2fold center right
  let x := blk.norm1.forward inp
  let x := conv2d blk.conv1w blk.conv1b blk.c dw 1 0 1 x
  let x := conv2d blk.conv2w blk.conv2b dw dw 3 1 dw x
  let x := SimpleGate.forward x
  let x := Tensor.mul x (conv2d blk.scaw blk.scab (dw / 2) (dw / 2) 1 0 1 (adaptiveAvgPool1 x))
  let x := conv2d blk.conv3w blk.conv3b (dw / 2) blk.c 1 0 1 x
  let y := Tensor.add inp (Tensor.mul x (chanParam blk.c blk.beta))
  let x := conv2d blk.conv4w blk.conv4b blk.c ffn 1 0 1 (blk.norm2.forward y)
  let x := SimpleGate.forward x
  let x := conv2d blk.conv5w blk.conv5b (ffn / 2) blk.c 1 0 1 x
  Tensor.add y (Tensor.mul x (chanParam blk.c blk.gamma))

/-- State of the streaming block `NAFBlockBBB`.  `__init__` leaves the
dimension attributes `self.n`, `self.c`, `self.h`, `self.w`, `self.fold`
unset; they are created on the first call carrying a real frame and are
only read after such a call, so the embedding stores them from the start
(initial values are never observable). -/
structure NAFBlockBBB where
  op : ShiftNAFBlock
  out_channels : ℕ
  left_fold_2fold : Option Tensor
  center : Option Tensor
  n : ℕ
  c : ℕ
  h : ℕ
  w : ℕ
  fold : ℕ

/-- `NAFBlockBBB.__init__`. -/
def NAFBlockBBB.init (op : ShiftNAFBlock) (c : ℕ) : NAFBlockBBB :=
  ⟨op, c, none, none, 0, 0, 0, 0, 0⟩

/-- `NAFBlockBBB.reset`: clear both buffers (the dimension attributes are
not touched). -/
def NAFBlockBBB.reset (s : NAFBlockBBB) : NAFBlockBBB :=
  { s with left_fold_2fold := none, center := none }

/-- `NAFBlockBBB.forward` (verbose printing omitted: it only formats
means for diagnostics).  Passing a `None` buffer into `self.op` would
raise inside `torch.cat`, hence the `Except` error case; that state is
unreachable from a reset block. -/
noncomputable def NAFBlockBBB.forward (s : NAFBlockBBB) (input_right : Option Tensor) :
    Except String (Option Tensor × NAFBlockBBB) :=
  let s1 : NAFBlockBBB :=
    match input_right with
    | some x => { s with n := x.n, c := x.c, h := x.h, w := x.w, fold := x.c / 8 }
    | none => s
  match s1.center with
  | none =>
    -- Case1: in the start or end stage, the memory is empty
    match input_right with
    | some _ =>
      .ok (none,
        { s1 with
          center := input_right,
          left_fold_2fold :=
            match s1.left_fold_2fold with
            | none => some (Tensor.zeros s1.n s1.fold s1.h s1.w)
            | some l => some l })
    | none => .ok (none, { s1 with center := none })
  | some cen =>
    match s1.left_fold_2fold with
    | none => .error "TypeError: expected Tensor as element 1 in argument 0, but got NoneType"
    | some left =>
      let output :=
        match input_right with
        | none =>
          -- Case2: center is not None, but input_right is None
          s1.op.forward left cen (Tensor.zeros s1.n s1.fold s1.h s1.w)
        | some ir => s1.op.forward left cen ir
      .ok (some output,
        { s1 with
          left_fold_2fold := some (cen.sliceC s1.fold (2 * s1.fold)),
          center := input_right })

/-- Feed a list of frames (or end markers) through a `NAFBlockBBB`,
collecting the outputs and the final state. -/
noncomputable def runSeq (s : NAFBlockBBB) : List (Option Tensor) →
    Except String (List (Option Tensor) × NAFBlockBBB)
  | [] => .ok ([], s)
  | i :: rest =>
    match s.forward i with
    | .error e => .error e
    | .ok (o, s1) =>
      match runSeq s1 rest with
      | .error e => .error e
      | .ok (os, s2) => .ok (o :: os, s2)

/-- Parameters of `NAFBlockHalf`: the first (expert-tower) half of
`NAFBlock` only — no `conv4`/`conv5`, no `norm2`, no `gamma`. -/
structure NAFBlockHalf where
  c : ℕ
  DW_Expand : ℕ
  FFN_Expand : ℕ
  conv1w : ℕ → ℕ → ℕ → ℕ → ℝ
  conv1b : ℕ → ℝ
  conv2w : ℕ → ℕ → ℕ → ℕ → ℝ
  conv2b : ℕ → ℝ
  conv3w : ℕ → ℕ → ℕ → ℕ → ℝ
  conv3b : ℕ → ℝ
  scaw : ℕ → ℕ → ℕ → ℕ → ℝ
  scab : ℕ → ℝ
  norm1 : LayerNorm2d
  beta : ℕ → ℝ

/-- `NAFBlockHalf.forward`. -/
noncomputable def NAFBlockHalf.forward (blk : NAFBlockHalf) (inp : Tensor) : Tensor :=
  let dw := blk.c * blk.DW_Expand
  let x := blk.norm1.forward inp
  let x := conv2d blk.conv1w blk.conv1b blk.c dw 1 0 1 x
  let x := conv2d blk.conv2w blk.conv2b dw dw 3 1 dw x
  let x := SimpleGate.forward x
  let x := Tensor.mul x (conv2d blk.scaw blk.scab (dw / 2) (dw / 2) 1 0 1 (adaptiveAvgPool1 x))
  let x := conv2d blk.conv3w blk.conv3b (dw / 2) blk.c 1 0 1 x
  Tensor.add inp (Tensor.mul x (chanParam blk.c blk.beta))

/-- Parameters of `PseudoTemporalConvBlock`: gate, two 1x1 convolutions,
one layer norm and the learned residual scalar `beta`. -/
structure PseudoTemporalConvBlock where
  c : ℕ
  FFN_Expand : ℕ
  conv1w : ℕ → ℕ → ℕ → ℕ → ℝ
  conv1b : ℕ → ℝ
  conv2w : ℕ → ℕ → ℕ → ℕ → ℝ
  conv2b : ℕ → ℝ
  norm1 : LayerNorm2d
  beta : ℕ → ℝ

/-- `PseudoTemporalConvBlock.forward`. -/
noncomputable def PseudoTemporalConvBlock.forward
    (blk : PseudoTemporalConvBlock) (inp : Tensor) : Tensor :=
  let ffn := blk.FFN_Expand * blk.c
  let x := conv2d blk.conv1w blk.conv1b blk.c ffn 1 0 1 (blk.norm1.forward inp)
  let x := SimpleGate.forward x
  let x := conv2d blk.conv2w blk.conv2b (ffn / 2) blk.c 1 0 1 x
  Tensor.add inp (Tensor.mul x (chanParam blk.c blk.beta))

/-- Parameters of `ShiftPseudoTemporalConvBlock` (same stack as
`PseudoTemporalConvBlock`, applied to the assembled composite input). -/
structure ShiftPseudoTemporalConvBlock where
  c : ℕ
  FFN_Expand : ℕ
  conv1w : ℕ → ℕ → ℕ → ℕ → ℝ
  conv1b : ℕ → ℝ
  conv2w : ℕ → ℕ → ℕ → ℕ → ℝ
  conv2b : ℕ → ℝ
  norm1 : LayerNorm2d
  beta : ℕ → ℝ

/-- `ShiftPseudoTemporalConvBlock.forward`. -/
noncomputable def ShiftPseudoTemporalConvBlock.forward
    (blk : ShiftPseudoTemporalConvBlock) (left_fold_2fold center right : Tensor) : Tensor :=
  let ffn := blk.FFN_Expand * blk.c
  let inp := assembleInp left_fold_2fold center right
  let x := conv2d blk.conv1w blk.conv1b blk.c ffn 1 0 1 (blk.norm1.forward inp)
  let x := SimpleGate.forward x
  let x := conv2d blk.conv2w blk.conv2b (ffn / 2) blk.c 1 0 1 x
  Tensor.add inp (Tensor.mul x (chanParam blk.c blk.beta))

/-- Kinds of first argument handed to Python's built-in `super`. -/
inductive PyArg
  | cls
  | inst

/-- Python's `super`: its first argument must be a type; handing it an
instance raises `TypeError` immediately. -/
def superArgCheck : PyArg → Except String Unit
  | PyArg.cls => .ok ()
  | PyArg.inst => .error "TypeError: super() argument 1 must be a type"

/-- Fields of `PseudoTemporalConvBlockBBB`. -/
structure PseudoTemporalConvBlockBBB where
  op : ShiftPseudoTemporalConvBlock
  out_channels : ℕ
  left_fold_2fold : Option Tensor
  center : Option Tensor

/-- `PseudoTemporalConvBlockBBB.__init__`: the source calls
`super(self).__init__()` — passing the instance where a class is
required — so the `TypeError` fires before any field assignment runs.
`opParams` stands for the framework-initialized weights the
`ShiftPseudoTemporalConvBlock` sub-module would receive. -/
def PseudoTemporalConvBlockBBB.init (c DW_Expand FFN_Expand : ℕ)
    (drop_out_rate : ℝ) (opParams : ShiftPseudoTemporalConvBlock) :
    Except String PseudoTemporalConvBlockBBB := do
  let _ := DW_Expand
  let _ := FFN_Expand
  let _ := drop_out_rate
  let _ ← superArgCheck PyArg.inst
  pure { op := opParams, out_channels := c, left_fold_2fold := none, center := none }

/-! ### Small shape and broadcast lemmas -/

@[simp]
theorem bdim_self (a : ℕ) : bdim a a = a := by
  unfold bdim; split <;> rfl

@[simp]
theorem bdim_one_right (a : ℕ) : bdim a 1 = a := by
  unfold bdim; split <;> omega

theorem bidx_lt {m i : ℕ} (h : i < m) : bidx m i = i := by
  unfold bidx; split <;> omega

@[simp] theorem conv2d_n (w b Ci Co k p g x) : (conv2d w b Ci Co k p g x).n = x.n := rfl
@[simp] theorem conv2d_c (w b Ci Co k p g x) : (conv2d w b Ci Co k p g x).c = Co := rfl
@[simp] theorem conv2d_h (w b Ci Co k p g x) :
    (conv2d w b Ci Co k p g x).h = x.h + 2 * p + 1 - k := rfl
@[simp] theorem conv2d_w (w b Ci Co k p g x) :
    (conv2d w b Ci Co k p g x).w = x.w + 2 * p + 1 - k := rfl

@[simp] theorem add_n (a b : Tensor) : (a.add b).n = bdim a.n b.n := rfl
@[simp] theorem add_c (a b : Tensor) : (a.add b).c = bdim a.c b.c := rfl
@[simp] theorem add_h (a b : Tensor) : (a.add b).h = bdim a.h b.h := rfl
@[simp] theorem add_w (a b : Tensor) : (a.add b).w = bdim a.w b.w := rfl
@[simp] theorem mul_n (a b : Tensor) : (a.mul b).n = bdim a.n b.n := rfl
@[simp] theorem mul_c (a b : Tensor) : (a.mul b).c = bdim a.c b.c := rfl
@[simp] theorem mul_h (a b : Tensor) : (a.mul b).h = bdim a.h b.h := rfl
@[simp] theorem mul_w (a b : Tensor) : (a.mul b).w = bdim a.w b.w := rfl

@[simp] theorem sliceC_n (x : Tensor) (lo hi) : (x.sliceC lo hi).n = x.n := rfl
@[simp] theorem sliceC_c (x : Tensor) (lo hi) : (x.sliceC lo hi).c = hi - lo := rfl
@[simp] theorem sliceC_h (x : Tensor) (lo hi) : (x.sliceC lo hi).h = x.h := rfl
@[simp] theorem sliceC_w (x : Tensor) (lo hi) : (x.sliceC lo hi).w = x.w := rfl

@[simp] theorem pool_n (x : Tensor) : (adaptiveAvgPool1 x).n = x.n := rfl
@[simp] theorem pool_c (x : Tensor) : (adaptiveAvgPool1 x).c = x.c := rfl
@[simp] theorem pool_h (x : Tensor) : (adaptiveAvgPool1 x).h = 1 := rfl
@[simp] theorem pool_w (x : Tensor) : (adaptiveAvgPool1 x).w = 1 := rfl

@[simp] theorem ln2d_n (m : LayerNorm2d) (x) : (m.forward x).n = x.n := rfl
@[simp] theorem ln2d_c (m : LayerNorm2d) (x) : (m.forward x).c = x.c := rfl
@[simp] theorem ln2d_h (m : LayerNorm2d) (x) : (m.forward x).h = x.h := rfl
@[simp] theorem ln2d_w (m : LayerNorm2d) (x) : (m.forward x).w = x.w := rfl

@[simp] theorem chanParam_n (c f) : (chanParam c f).n = 1 := rfl
@[simp] theorem chanParam_c (c f) : (chanParam c f).c = c := rfl
@[simp] theorem chanParam_h (c f) : (chanParam c f).h = 1 := rfl
@[simp] theorem chanParam_w (c f) : (chanParam c f).w = 1 := rfl

@[simp] theorem sg_n (x : Tensor) : (SimpleGate.forward x).n = x.n := by
  simp [SimpleGate.forward]
@[simp] theorem sg_h (x : Tensor) : (SimpleGate.forward x).h = x.h := by
  simp [SimpleGate.forward]
@[simp] theorem sg_w (x : Tensor) : (SimpleGate.forward x).w = x.w := by
  simp [SimpleGate.forward]

theorem sg_c_even (x : Tensor) (h : 2 ∣ x.c) : (SimpleGate.forward x).c = x.c / 2 := by
  simp only [SimpleGate.forward, mul_c, sliceC_c]
  unfold bdim; split <;> omega

/-! ### C9: MemSkip is a FIFO queue with absence passthrough -/

theorem MemSkip.pushAll_mem_list {α : Type} (xs : List α) (m : MemSkip α) :
    (m.pushAll xs).mem_list = xs.reverse ++ m.mem_list := by
  induction xs generalizing m with
  | nil => simp [MemSkip.pushAll]
  | cons x t ih =>
    show ((⟨x :: m.mem_list⟩ : MemSkip α).pushAll t).mem_list = _
    rw [ih ⟨x :: m.mem_list⟩]
    simp

theorem MemSkip.popN_reverse {α : Type} (xs : List α) (probe : α) :
    ((⟨xs.reverse⟩ : MemSkip α).popN probe xs.length).1 =
      xs.map (fun v => Except.ok (some v)) := by
  induction xs with
  | nil => simp [MemSkip.popN]
  | cons x t ih =>
    simp only [List.length_cons, MemSkip.popN, MemSkip.pop, List.reverse_cons]
    rw [List.getLast?_concat, List.dropLast_concat]
    simp [ih]

/-- C9: `MemSkip` behaves as a FIFO queue with absence passthrough:
`push` with a present value prepends it and returns 1; `push None`
returns 0 and leaves the list unchanged; `pop None` returns `None` and
leaves the list unchanged; and popping with a present probe, as many
times as values were pushed into a fresh queue, returns the pushed
values in first-in first-out order. -/
theorem memSkip_fifo_c9 {α : Type} :
    (∀ (m : MemSkip α) (v : α), m.push (some v) = (1, ⟨v :: m.mem_list⟩)) ∧
    (∀ m : MemSkip α, m.push none = (0, m)) ∧
    (∀ (m : MemSkip α) (v : α), m.pop none = (Except.ok none, m) ∧
      (m.pop (some v)).1 = match m.mem_list.getLast? with
        | some old => Except.ok (some old)
        | none => Except.error "IndexError: pop from empty list") ∧
    (∀ (xs : List α) (probe : α),
      (((MemSkip.empty : MemSkip α).pushAll xs).popN probe xs.length).1 =
        xs.map (fun v => Except.ok (some v))) := by
  refine ⟨fun m v => rfl, fun m => rfl, fun m v => ⟨rfl, ?_⟩, fun xs probe => ?_⟩
  · simp only [MemSkip.pop]
    cases m.mem_list.getLast? <;> rfl
  · have h : ((MemSkip.empty : MemSkip α).pushAll xs).mem_list = xs.reverse := by
      rw [MemSkip.pushAll_mem_list]; simp [MemSkip.empty]
    have : ((MemSkip.empty : MemSkip α).pushAll xs) = ⟨xs.reverse⟩ := by
      cases hx : (MemSkip.empty : MemSkip α).pushAll xs
      simp_all
    rw [this, MemSkip.popN_reverse]

/-! ### C10: TemporalShift shifted-fold layout -/

/-- C10: for an input `(nt, c, h, w)` with `nt` divisible by `n_segment`
(bidirectional shift type, positive stride), the output has the input's
shape; channels at index `2*fold` and above are copied from the input at
every temporal position; the last `stride` segment positions of the first
`fold` channels (vacated by the backward shift) are exactly zero, and the
first `stride` segment positions of the second `fold` channels (vacated
by the forward shift) are exactly zero. -/
theorem temporalShift_fold_layout_c10 (m : TemporalShift) (x : Tensor)
    (hft : m.toFutureOnly = false) (_hs : 1 ≤ m.stride) (_hdvd : m.n_segment ∣ x.n) :
    ((m.forward x).sameShape x) ∧
    (∀ t j k l, 2 * (x.c / m.fold_div) ≤ j →
      (m.forward x).data t j k l = x.data t j k l) ∧
    (∀ t j k l, j < x.c / m.fold_div → m.n_segment ≤ t % m.n_segment + m.stride →
      (m.forward x).data t j k l = 0) ∧
    (∀ t j k l, x.c / m.fold_div ≤ j → j < 2 * (x.c / m.fold_div) →
      t % m.n_segment < m.stride →
      (m.forward x).data t j k l = 0) := by
  refine ⟨⟨rfl, rfl, rfl, rfl⟩, ?_, ?_, ?_⟩
  · intro t j k l hj
    simp only [TemporalShift.forward, hft, Bool.false_eq_true, if_false]
    rw [if_neg (by omega), if_neg (by omega)]
  · intro t j k l hj hvac
    simp only [TemporalShift.forward, hft, Bool.false_eq_true, if_false]
    rw [if_pos (by omega), if_neg (by omega)]
  · intro t j k l hj1 hj2 hvac
    simp only [TemporalShift.forward, hft, Bool.false_eq_true, if_false]
    rw [if_neg (by omega), if_pos (by omega), if_neg (by omega)]

/-- Witness for C10 at a concrete module and input. -/
theorem temporalShift_fold_layout_c10_witness :
    let m : TemporalShift := ⟨2, false, 8, 1⟩
    let x : Tensor := ⟨2, 8, 1, 1, fun _ _ _ _ => 1⟩
    ((m.forward x).sameShape x) ∧
    (∀ t j k l, 2 * (x.c / m.fold_div) ≤ j →
      (m.forward x).data t j k l = x.data t j k l) ∧
    (∀ t j k l, j < x.c / m.fold_div → m.n_segment ≤ t % m.n_segment + m.stride →
      (m.forward x).data t j k l = 0) ∧
    (∀ t j k l, x.c / m.fold_div ≤ j → j < 2 * (x.c / m.fold_div) →
      t % m.n_segment < m.stride →
      (m.forward x).data t j k l = 0) :=
  temporalShift_fold_layout_c10 ⟨2, false, 8, 1⟩ ⟨2, 8, 1, 1, fun _ _ _ _ => 1⟩
    rfl (by norm_num) (by norm_num)

/-! ### C8: PseudoTemporalConvBlockBBB construction always fails -/

/-- C8: `PseudoTemporalConvBlockBBB.__init__` calls `super(self).__init__()`,
handing the instance where `super` requires a class, so construction
raises `TypeError` for every choice of arguments, before any field is
initialized. -/
theorem ptcBBB_init_always_fails_c8 :
    ∀ (c DW_Expand FFN_Expand : ℕ) (drop_out_rate : ℝ)
      (opParams : ShiftPseudoTemporalConvBlock),
      PseudoTemporalConvBlockBBB.init c DW_Expand FFN_Expand drop_out_rate opParams =
        Except.error "TypeError: super() argument 1 must be a type" :=
  fun _ _ _ _ _ => rfl

/-! ### C6: channel-wise normalization has mean 0 and variance var/(var+eps) -/

/-- C6: at every position `(i, k, l)`, the intermediate normalized
activation `y = (x - mu) / sqrt(var + eps)` of `LayerNormFunction.forward`
has channel mean `0` and channel variance exactly
`var / (var + eps)` (1 within epsilon), before the learned affine. -/
theorem layerNorm_normalized_mean_var_c6 (x : Tensor) (eps : ℝ)
    (heps : 0 < eps) (hc : 1 ≤ x.c) :
    ∀ i k l,
      (∑ j ∈ Finset.range x.c, (LayerNormFunction.normalized x eps).data i j k l) / x.c = 0 ∧
      (∑ j ∈ Finset.range x.c,
          ((LayerNormFunction.normalized x eps).data i j k l -
            (∑ j' ∈ Finset.range x.c,
              (LayerNormFunction.normalized x eps).data i j' k l) / x.c) ^ 2) / x.c =
        LayerNormFunction.variance x i k l / (LayerNormFunction.variance x i k l + eps) := by
  intro i k l
  have hcast : (0 : ℝ) < (x.c : ℝ) := by
    have : 0 < x.c := hc
    exact_mod_cast this
  have hcne : (x.c : ℝ) ≠ 0 := hcast.ne'
  have hvnn : 0 ≤ LayerNormFunction.variance x i k l := by
    unfold LayerNormFunction.variance
    positivity
  have hpos : 0 < LayerNormFunction.variance x i k l + eps := by linarith
  have hsq : Real.sqrt (LayerNormFunction.variance x i k l + eps) ^ 2 =
      LayerNormFunction.variance x i k l + eps := Real.sq_sqrt hpos.le
  have hsub : ∑ j ∈ Finset.range x.c,
      (x.data i j k l - LayerNormFunction.mu x i k l) = 0 := by
    rw [Finset.sum_sub_distrib, Finset.sum_const, Finset.card_range, nsmul_eq_mul]
    unfold LayerNormFunction.mu
    field_simp
  have hmean : ∑ j ∈ Finset.range x.c,
      (LayerNormFunction.normalized x eps).data i j k l = 0 := by
    simp only [LayerNormFunction.normalized]
    rw [← Finset.sum_div, hsub, zero_div]
  refine ⟨by rw [hmean, zero_div], ?_⟩
  rw [hmean, zero_div]
  have hsum2 : ∑ j ∈ Finset.range x.c,
      ((LayerNormFunction.normalized x eps).data i j k l - 0) ^ 2 =
      (x.c : ℝ) * LayerNormFunction.variance x i k l /
        (LayerNormFunction.variance x i k l + eps) := by
    simp only [LayerNormFunction.normalized, sub_zero]
    have hdiv : ∀ j : ℕ,
        ((x.data i j k l - LayerNormFunction.mu x i k l) /
          Real.sqrt (LayerNormFunction.variance x i k l + eps)) ^ 2 =
        (x.data i j k l - LayerNormFunction.mu x i k l) ^ 2 /
          (LayerNormFunction.variance x i k l + eps) := by
      intro j; rw [div_pow, hsq]
    rw [Finset.sum_congr rfl fun j _ => hdiv j, ← Finset.sum_div]
    have hv : ∑ j ∈ Finset.range x.c,
        (x.data i j k l - LayerNormFunction.mu x i k l) ^ 2 =
        (x.c : ℝ) * LayerNormFunction.variance x i k l := by
      unfold LayerNormFunction.variance
      field_simp
    rw [hv]
  rw [hsum2]
  field_simp
  ring

/-- A concrete 1x2x1x1 input for the C6 witness. -/
def lnEx : Tensor := ⟨1, 2, 1, 1, fun _ j _ _ => (j : ℝ)⟩

/-- Witness for C6 at a concrete input, `eps = 1`, position `(0,0,0)`. -/
theorem layerNorm_normalized_mean_var_c6_witness :
    (∑ j ∈ Finset.range lnEx.c, (LayerNormFunction.normalized lnEx 1).data 0 j 0 0) / lnEx.c = 0 ∧
    (∑ j ∈ Finset.range lnEx.c,
        ((LayerNormFunction.normalized lnEx 1).data 0 j 0 0 -
          (∑ j' ∈ Finset.range lnEx.c,
            (LayerNormFunction.normalized lnEx 1).data 0 j' 0 0) / lnEx.c) ^ 2) / lnEx.c =
      LayerNormFunction.variance lnEx 0 0 0 / (LayerNormFunction.variance lnEx 0 0 0 + 1) :=
  layerNorm_normalized_mean_var_c6 lnEx 1 (by norm_num) (by decide) 0 0 0

/-! ### Streaming NAFBlockBBB: priming, drain, steady-state -/

/-- C4: with `center` absent, feeding a real frame stores it as `center`,
zero-initializes `left_fold_2fold` to shape `(batch, fold, height, width)`
when it was absent (leaves it as is otherwise), records the frame's
dimensions, and returns the absence marker without running the per-frame
transform. -/
theorem nafBlockBBB_priming_c4 (s : NAFBlockBBB) (f : Tensor)
    (hC : s.center = none) :
    s.forward (some f) = Except.ok (none,
      { s with
        n := f.n, c := f.c, h := f.h, w := f.w, fold := f.c / 8,
        center := some f,
        left_fold_2fold :=
          match s.left_fold_2fold with
          | none => some (Tensor.zeros f.n (f.c / 8) f.h f.w)
          | some l => some l }) := by
  unfold NAFBlockBBB.forward
  simp [hC]

/-- Witness for C4: priming a freshly constructed block. -/
def zeroLN : LayerNorm2d := ⟨fun _ => 0, fun _ => 0, 1e-6⟩

def zeroShiftNAFBlock : ShiftNAFBlock :=
  ⟨8, 2, 2,
   fun _ _ _ _ => 0, fun _ => 0,
   fun _ _ _ _ => 0, fun _ => 0,
   fun _ _ _ _ => 0, fun _ => 0,
   fun _ _ _ _ => 0, fun _ => 0,
   fun _ _ _ _ => 0, fun _ => 0,
   fun _ _ _ _ => 0, fun _ => 0,
   zeroLN, zeroLN, fun _ => 0, fun _ => 0⟩

/-- A concrete 1x8x1x1 frame. -/
def frameEx : Tensor := ⟨1, 8, 1, 1, fun _ _ _ _ => 1⟩

/-- A concrete 1x1x1x1 memory slice. -/
def memEx : Tensor := ⟨1, 1, 1, 1, fun _ _ _ _ => 2⟩

theorem nafBlockBBB_priming_c4_witness :
    (NAFBlockBBB.init zeroShiftNAFBlock 8).forward (some frameEx) = Except.ok (none,
      { NAFBlockBBB.init zeroShiftNAFBlock 8 with
        n := frameEx.n, c := frameEx.c, h := frameEx.h, w := frameEx.w,
        fold := frameEx.c / 8,
        center := some frameEx,
        left_fold_2fold :=
          match (NAFBlockBBB.init zeroShiftNAFBlock 8).left_fold_2fold with
          | none => some (Tensor.zeros frameEx.n (frameEx.c / 8) frameEx.h frameEx.w)
          | some l => some l }) :=
  nafBlockBBB_priming_c4 (NAFBlockBBB.init zeroShiftNAFBlock 8) frameEx rfl

/-- C2 (amended): on the drain call (`center` buffered, `input_right` the
end marker) the transform runs with a zero tensor in the right slot and
its output is returned — but the buffers ARE advanced: `left_fold_2fold`
becomes channels `[fold, 2*fold)` of the outgoing center and `center`
becomes the end marker. -/
theorem nafBlockBBB_drain_c2 (s : NAFBlockBBB) (cen l : Tensor)
    (hC : s.center = some cen) (hL : s.left_fold_2fold = some l) :
    s.forward none = Except.ok
      (some (s.op.forward l cen (Tensor.zeros s.n s.fold s.h s.w)),
       { s with
         left_fold_2fold := some (cen.sliceC s.fold (2 * s.fold)),
         center := none }) := by
  unfold NAFBlockBBB.forward
  simp [hC, hL]

/-- A drain-ready concrete state: `center` and the memory slice buffered. -/
def drainStateEx : NAFBlockBBB :=
  ⟨zeroShiftNAFBlock, 8, some memEx, some frameEx, 1, 8, 1, 1, 1⟩

theorem nafBlockBBB_drain_c2_witness :
    drainStateEx.forward none = Except.ok
      (some (drainStateEx.op.forward memEx frameEx
        (Tensor.zeros drainStateEx.n drainStateEx.fold drainStateEx.h drainStateEx.w)),
       { drainStateEx with
         left_fold_2fold := some (frameEx.sliceC drainStateEx.fold (2 * drainStateEx.fold)),
         center := none }) :=
  nafBlockBBB_drain_c2 drainStateEx frameEx memEx rfl rfl

/-- Counterexample for C2 as stated: the drain call does NOT leave the
two buffers unchanged — at `drainStateEx` the post-call
`(left_fold_2fold, center)` differ from the pre-call buffers
(`center` becomes the end marker). -/
theorem nafBlockBBB_drain_c2_counterexample :
    (drainStateEx.forward none).map
        (fun p => (p.2.left_fold_2fold, p.2.center)) ≠
      Except.ok (drainStateEx.left_fold_2fold, drainStateEx.center) := by
  intro h
  unfold NAFBlockBBB.forward at h
  simp [drainStateEx, Except.map] at h

/-- C3: with `fold = channels // 8`, the composite tensor handed to the
per-frame transform takes channels `[0, fold)` from the incoming right
frame, channels `[fold, 2*fold)` from the stored memory slice, and
channels `[2*fold, channels)` from the buffered center; and a
steady-state step leaves `left_fold_2fold = ` channels `[fold, 2*fold)`
of the outgoing center and `center = ` the incoming frame. -/
theorem shiftNAF_assembly_and_shift_c3
    (left cen right : Tensor) (hlc : left.c = cen.c / 8)
    (s : NAFBlockBBB) (cen' f : Tensor)
    (hC : s.center = some cen') (hL : s.left_fold_2fold ≠ none)
    (hfc : f.c = cen'.c) :
    (∀ i j k l, j < cen.c / 8 →
      (assembleInp left cen right).data i j k l = right.data i j k l) ∧
    (∀ i j k l, cen.c / 8 ≤ j → j < 2 * (cen.c / 8) →
      (assembleInp left cen right).data i j k l = left.data i (j - cen.c / 8) k l) ∧
    (∀ i j k l, 2 * (cen.c / 8) ≤ j → j < cen.c →
      (assembleInp left cen right).data i j k l = cen.data i j k l) ∧
    ((s.forward (some f)).map (fun p => (p.2.left_fold_2fold, p.2.center)) =
      Except.ok (some (cen'.sliceC (cen'.c / 8) (2 * (cen'.c / 8))), some f)) := by
  refine ⟨?_, ?_, ?_, ?_⟩
  · intro i j k l hj
    simp [assembleInp, Tensor.cat3, Tensor.sliceC, hj]
  · intro i j k l hj1 hj2
    simp only [assembleInp, Tensor.cat3, Tensor.sliceC]
    rw [if_neg (by omega), if_pos (by omega)]
    have : j - (cen.c / 8 - 0) = j - cen.c / 8 := by omega
    rw [this]
  · intro i j k l hj1 hj2
    simp only [assembleInp, Tensor.cat3, Tensor.sliceC]
    rw [if_neg (by omega), if_neg (by omega)]
    have : 2 * (cen.c / 8) + (j - (cen.c / 8 - 0) - left.c) = j := by omega
    rw [this]
  · obtain ⟨l0, hL0⟩ := Option.ne_none_iff_exists'.mp hL
    unfold NAFBlockBBB.forward
    simp [hC, hL0, Except.map, hfc]

/-- Witness for C3 at concrete slices and a concrete steady state. -/
theorem shiftNAF_assembly_and_shift_c3_witness :
    (∀ i j k l, j < frameEx.c / 8 →
      (assembleInp memEx frameEx frameEx).data i j k l = frameEx.data i j k l) ∧
    (∀ i j k l, frameEx.c / 8 ≤ j → j < 2 * (frameEx.c / 8) →
      (assembleInp memEx frameEx frameEx).data i j k l =
        memEx.data i (j - frameEx.c / 8) k l) ∧
    (∀ i j k l, 2 * (frameEx.c / 8) ≤ j → j < frameEx.c →
      (assembleInp memEx frameEx frameEx).data i j k l = frameEx.data i j k l) ∧
    ((drainStateEx.forward (some frameEx)).map
        (fun p => (p.2.left_fold_2fold, p.2.center)) =
      Except.ok (some (frameEx.sliceC (frameEx.c / 8) (2 * (frameEx.c / 8))),
        some frameEx)) :=
  shiftNAF_assembly_and_shift_c3 memEx frameEx frameEx rfl
    drainStateEx frameEx frameEx rfl (by simp [drainStateEx]) rfl

/-- C1: feeding `[f0, f1, f2, end]` into an empty-state block: the first
call returns the absence marker; each later call returns the transform applied
to the previously buffered frame as center, the memory slice saved from
the frame before it (zeros when there is none), and the current input as
the right slice (zeros on the drain call). -/
theorem nafBlockBBB_stream_c1 (s : NAFBlockBBB) (f0 f1 f2 : Tensor)
    (hL : s.left_fold_2fold = none) (hC : s.center = none)
    (hn1 : f1.n = f0.n) (hc1 : f1.c = f0.c) (hh1 : f1.h = f0.h) (hw1 : f1.w = f0.w)
    (hn2 : f2.n = f0.n) (hc2 : f2.c = f0.c) (hh2 : f2.h = f0.h) (hw2 : f2.w = f0.w) :
    (runSeq s [some f0, some f1, some f2, none]).map Prod.fst =
      Except.ok [none,
        some (s.op.forward (Tensor.zeros f0.n (f0.c / 8) f0.h f0.w) f0 f1),
        some (s.op.forward (f0.sliceC (f0.c / 8) (2 * (f0.c / 8))) f1 f2),
        some (s.op.forward (f1.sliceC (f0.c / 8) (2 * (f0.c / 8))) f2
          (Tensor.zeros f0.n (f0.c / 8) f0.h f0.w))] := by
  have h1 : s.forward (some f0) = Except.ok (none,
      ⟨s.op, s.out_channels, some (Tensor.zeros f0.n (f0.c / 8) f0.h f0.w),
       some f0, f0.n, f0.c, f0.h, f0.w, f0.c / 8⟩) := by
    unfold NAFBlockBBB.forward
    simp [hC, hL]
  have h2 : (⟨s.op, s.out_channels,
      some (Tensor.zeros f0.n (f0.c / 8) f0.h f0.w),
      some f0, f0.n, f0.c, f0.h, f0.w, f0.c / 8⟩ : NAFBlockBBB).forward (some f1) =
      Except.ok
        (some (s.op.forward (Tensor.zeros f0.n (f0.c / 8) f0.h f0.w) f0 f1),
         ⟨s.op, s.out_channels, some (f0.sliceC (f0.c / 8) (2 * (f0.c / 8))),
          some f1, f0.n, f0.c, f0.h, f0.w, f0.c / 8⟩) := by
    unfold NAFBlockBBB.forward
    simp [hn1, hc1, hh1, hw1]
  have h3 : (⟨s.op, s.out_channels,
      some (f0.sliceC (f0.c / 8) (2 * (f0.c / 8))),
      some f1, f0.n, f0.c, f0.h, f0.w, f0.c / 8⟩ : NAFBlockBBB).forward (some f2) =
      Except.ok
        (some (s.op.forward (f0.sliceC (f0.c / 8) (2 * (f0.c / 8))) f1 f2),
         ⟨s.op, s.out_channels, some (f1.sliceC (f0.c / 8) (2 * (f0.c / 8))),
          some f2, f0.n, f0.c, f0.h, f0.w, f0.c / 8⟩) := by
    unfold NAFBlockBBB.forward
    simp [hn2, hc2, hh2, hw2, hc1]
  have h4 : (⟨s.op, s.out_channels,
      some (f1.sliceC (f0.c / 8) (2 * (f0.c / 8))),
      some f2, f0.n, f0.c, f0.h, f0.w, f0.c / 8⟩ : NAFBlockBBB).forward none =
      Except.ok
        (some (s.op.forward (f1.sliceC (f0.c / 8) (2 * (f0.c / 8))) f2
          (Tensor.zeros f0.n (f0.c / 8) f0.h f0.w)),
         ⟨s.op, s.out_channels, some (f2.sliceC (f0.c / 8) (2 * (f0.c / 8))),
          none, f0.n, f0.c, f0.h, f0.w, f0.c / 8⟩) := by
    unfold NAFBlockBBB.forward
    simp
  simp [runSeq, h1, h2, h3, h4, Except.map]

/-- Witness for C1: the four-step stream on a fresh block with three
copies of a concrete frame. -/
theorem nafBlockBBB_stream_c1_witness :
    (runSeq (NAFBlockBBB.init zeroShiftNAFBlock 8)
        [some frameEx, some frameEx, some frameEx, none]).map Prod.fst =
      Except.ok [none,
        some ((NAFBlockBBB.init zeroShiftNAFBlock 8).op.forward
          (Tensor.zeros frameEx.n (frameEx.c / 8) frameEx.h frameEx.w) frameEx frameEx),
        some ((NAFBlockBBB.init zeroShiftNAFBlock 8).op.forward
          (frameEx.sliceC (frameEx.c / 8) (2 * (frameEx.c / 8))) frameEx frameEx),
        some ((NAFBlockBBB.init zeroShiftNAFBlock 8).op.forward
          (frameEx.sliceC (frameEx.c / 8) (2 * (frameEx.c / 8))) frameEx
          (Tensor.zeros frameEx.n (frameEx.c / 8) frameEx.h frameEx.w))] :=
  nafBlockBBB_stream_c1 (NAFBlockBBB.init zeroShiftNAFBlock 8) frameEx frameEx frameEx
    rfl rfl rfl rfl rfl rfl rfl rfl rfl rfl

/-- A single `forward` call never changes `op` or `out_channels`. -/
theorem NAFBlockBBB.forward_preserves (s : NAFBlockBBB) (i : Option Tensor)
    (o : Option Tensor) (s' : NAFBlockBBB) (h : s.forward i = Except.ok (o, s')) :
    s'.op = s.op ∧ s'.out_channels = s.out_channels := by
  unfold NAFBlockBBB.forward at h
  cases i with
  | none =>
    cases hc : s.center with
    | none =>
      simp [hc] at h
      obtain ⟨-, h2⟩ := h
      subst h2
      exact ⟨rfl, rfl⟩
    | some cen =>
      cases hl : s.left_fold_2fold with
      | none => simp [hc, hl] at h
      | some l =>
        simp [hc, hl] at h
        obtain ⟨-, h2⟩ := h
        subst h2
        exact ⟨rfl, rfl⟩
  | some f =>
    cases hc : s.center with
    | none =>
      simp [hc] at h
      obtain ⟨-, h2⟩ := h
      subst h2
      exact ⟨rfl, rfl⟩
    | some cen =>
      cases hl : s.left_fold_2fold with
      | none => simp [hc, hl] at h
      | some l =>
        simp [hc, hl] at h
        obtain ⟨-, h2⟩ := h
        subst h2
        exact ⟨rfl, rfl⟩

/-- Unrolling `runSeq` on a cons when the first step fails. -/
theorem runSeq_cons_error (s : NAFBlockBBB) (i : Option Tensor)
    (rest : List (Option Tensor)) (e : String)
    (h : s.forward i = Except.error e) : runSeq s (i :: rest) = Except.error e := by
  unfold runSeq
  rw [h]

/-- Unrolling `runSeq` on a cons when the first step succeeds. -/
theorem runSeq_cons_ok (s : NAFBlockBBB) (i : Option Tensor)
    (rest : List (Option Tensor)) (o : Option Tensor) (s1 : NAFBlockBBB)
    (h : s.forward i = Except.ok (o, s1)) :
    runSeq s (i :: rest) =
      match runSeq s1 rest with
      | Except.error e => Except.error e
      | Except.ok (os, s2) => Except.ok (o :: os, s2) := by
  conv_lhs => unfold runSeq
  rw [h]

/-- A whole run never changes `op` or `out_channels`. -/
theorem runSeq_preserves (ins : List (Option Tensor)) :
    ∀ (s : NAFBlockBBB) (outs : List (Option Tensor)) (s' : NAFBlockBBB),
      runSeq s ins = Except.ok (outs, s') →
      s'.op = s.op ∧ s'.out_channels = s.out_channels := by
  induction ins with
  | nil =>
    intro s outs s' h
    simp [runSeq] at h
    obtain ⟨-, h2⟩ := h
    subst h2
    exact ⟨rfl, rfl⟩
  | cons i rest ih =>
    intro s outs s' h
    cases hf : s.forward i with
    | error e => rw [runSeq_cons_error s i rest e hf] at h; simp at h
    | ok p =>
      obtain ⟨o, s1⟩ := p
      rw [runSeq_cons_ok s i rest o s1 hf] at h
      cases hr : runSeq s1 rest with
      | error e => rw [hr] at h; simp at h
      | ok q =>
        obtain ⟨os, s2⟩ := q
        rw [hr] at h
        simp at h
        obtain ⟨-, h2⟩ := h
        subst h2
        have hp := NAFBlockBBB.forward_preserves s i o s1 hf
        have hq := ih s1 os _ hr
        exact ⟨hq.1.trans hp.1, hq.2.trans hp.2⟩

/-- Unrolling one step of `runSeq` under `Except.map Prod.fst`. -/
theorem runSeq_cons_map (s : NAFBlockBBB) (i : Option Tensor)
    (rest : List (Option Tensor)) (o : Option Tensor) (s1 : NAFBlockBBB)
    (h : s.forward i = Except.ok (o, s1)) :
    (runSeq s (i :: rest)).map Prod.fst =
      ((runSeq s1 rest).map Prod.fst).map (fun os => o :: os) := by
  rw [runSeq_cons_ok s i rest o s1 h]
  cases hr : runSeq s1 rest with
  | error e => simp [Except.map]
  | ok q => obtain ⟨os, s2⟩ := q; simp [Except.map]

/-- Two blocks with the same parameters, both in the empty state
(both buffers absent), produce the same outputs on any input sequence:
the stale dimension attributes cannot influence any output. -/
theorem runSeq_clean_congr (ins : List (Option Tensor)) :
    ∀ s t : NAFBlockBBB, s.op = t.op → s.out_channels = t.out_channels →
      s.left_fold_2fold = none → s.center = none →
      t.left_fold_2fold = none → t.center = none →
      (runSeq s ins).map Prod.fst = (runSeq t ins).map Prod.fst := by
  induction ins with
  | nil => intro s t _ _ _ _ _ _; simp [runSeq, Except.map]
  | cons i rest ih =>
    intro s t hop hoc hsl hsc htl htc
    cases i with
    | none =>
      have hs : s.forward none = Except.ok (none, { s with center := none }) := by
        unfold NAFBlockBBB.forward; simp [hsc]
      have ht : t.forward none = Except.ok (none, { t with center := none }) := by
        unfold NAFBlockBBB.forward; simp [htc]
      rw [runSeq_cons_map s none rest none _ hs,
          runSeq_cons_map t none rest none _ ht,
          ih { s with center := none } { t with center := none }
            (by simp [hop]) (by simp [hoc]) (by simp [hsl]) (by simp)
            (by simp [htl]) (by simp)]
    | some f =>
      have hs : s.forward (some f) = Except.ok (none,
          ⟨t.op, t.out_channels, some (Tensor.zeros f.n (f.c / 8) f.h f.w),
           some f, f.n, f.c, f.h, f.w, f.c / 8⟩) := by
        unfold NAFBlockBBB.forward; simp [hsc, hsl, hop, hoc]
      have ht : t.forward (some f) = Except.ok (none,
          ⟨t.op, t.out_channels, some (Tensor.zeros f.n (f.c / 8) f.h f.w),
           some f, f.n, f.c, f.h, f.w, f.c / 8⟩) := by
        unfold NAFBlockBBB.forward; simp [htc, htl]
      rw [runSeq_cons_map s (some f) rest none _ hs,
          runSeq_cons_map t (some f) rest none _ ht]

/-- C5: run a sequence from the empty state, `reset()`, run the identical
sequence again — the outputs of the second run equal the first run's at
every position: `reset` clears both buffers and no state leaks across
sequences. -/
theorem nafBlockBBB_reset_replay_c5 (s0 : NAFBlockBBB)
    (ins outs : List (Option Tensor)) (s1 : NAFBlockBBB)
    (hL : s0.left_fold_2fold = none) (hC : s0.center = none)
    (hrun : runSeq s0 ins = Except.ok (outs, s1)) :
    (runSeq s1.reset ins).map Prod.fst = Except.ok outs := by
  obtain ⟨hop, hoc⟩ := runSeq_preserves ins s0 outs s1 hrun
  rw [runSeq_clean_congr ins s1.reset s0
        (by simp [NAFBlockBBB.reset, hop]) (by simp [NAFBlockBBB.reset, hoc])
        (by simp [NAFBlockBBB.reset]) (by simp [NAFBlockBBB.reset]) hL hC,
      hrun]
  rfl

/-- Witness for C5: a one-frame run on a fresh block, then reset and replay. -/
theorem nafBlockBBB_reset_replay_c5_witness :
    (runSeq ((⟨zeroShiftNAFBlock, 8,
        some (Tensor.zeros frameEx.n (frameEx.c / 8) frameEx.h frameEx.w),
        some frameEx, frameEx.n, frameEx.c, frameEx.h, frameEx.w,
        frameEx.c / 8⟩ : NAFBlockBBB).reset) [some frameEx]).map Prod.fst =
      Except.ok [none] :=
  nafBlockBBB_reset_replay_c5 (NAFBlockBBB.init zeroShiftNAFBlock 8)
    [some frameEx] [none] _ rfl rfl rfl

/-! ### C7: NAFBlock family — shape preservation and pure-addition residual -/

@[simp]
theorem size3x3 (a : ℕ) : a + 2 + 1 - 3 = a := by omega

/-- Dropping through two broadcast levels at an in-range index. -/
theorem bidx_bdim_twice (a b i : ℕ) (h : i < a) :
    bidx a (bidx (bdim a b) i) = i := by
  rcases eq_or_ne a 1 with ha | ha
  · subst ha
    have : i = 0 := by omega
    subst this
    simp [bidx]
  · unfold bidx bdim
    simp [ha]

/-- Adding a residual branch scaled by a zero per-channel parameter is the
identity on in-range data. -/
theorem single_residual_zero (inp x2 : Tensor) (cc : ℕ) (i j k l : ℕ)
    (hi : i < inp.n) (hj : j < inp.c) (hk : k < inp.h) (hl : l < inp.w) :
    (Tensor.add inp (Tensor.mul x2 (chanParam cc (fun _ => 0)))).data i j k l =
      inp.data i j k l := by
  simp only [Tensor.add, Tensor.mul, chanParam, mul_zero, add_zero]
  rw [bidx_lt hi, bidx_lt hj, bidx_lt hk, bidx_lt hl]

/-- Two nested residual branches, both scaled by zero parameters. -/
theorem double_residual_zero (inp x3 x5 : Tensor) (c1 c2 : ℕ) (i j k l : ℕ)
    (hi : i < inp.n) (hj : j < inp.c) (hk : k < inp.h) (hl : l < inp.w) :
    (Tensor.add (Tensor.add inp (Tensor.mul x3 (chanParam c1 (fun _ => 0))))
        (Tensor.mul x5 (chanParam c2 (fun _ => 0)))).data i j k l =
      inp.data i j k l := by
  simp only [Tensor.add, Tensor.mul, chanParam, bdim_one_right, mul_zero, add_zero]
  rw [bidx_bdim_twice _ _ _ hi, bidx_bdim_twice _ _ _ hj,
      bidx_bdim_twice _ _ _ hk, bidx_bdim_twice _ _ _ hl]

/-- All learned parameters of a `NAFBlock` set to zero. -/
def NAFBlock.zeroParams (b : NAFBlock) : Prop :=
  b.conv1w = (fun _ _ _ _ => 0) ∧ b.conv1b = (fun _ => 0) ∧
  b.conv2w = (fun _ _ _ _ => 0) ∧ b.conv2b = (fun _ => 0) ∧
  b.conv3w = (fun _ _ _ _ => 0) ∧ b.conv3b = (fun _ => 0) ∧
  b.scaw = (fun _ _ _ _ => 0) ∧ b.scab = (fun _ => 0) ∧
  b.conv4w = (fun _ _ _ _ => 0) ∧ b.conv4b = (fun _ => 0) ∧
  b.conv5w = (fun _ _ _ _ => 0) ∧ b.conv5b = (fun _ => 0) ∧
  b.norm1.weight = (fun _ => 0) ∧ b.norm1.bias = (fun _ => 0) ∧
  b.norm2.weight = (fun _ => 0) ∧ b.norm2.bias = (fun _ => 0) ∧
  b.beta = (fun _ => 0) ∧ b.gamma = (fun _ => 0)

/-- All learned parameters of a `NAFBlockHalf` set to zero. -/
def NAFBlockHalf.zeroParams (b : NAFBlockHalf) : Prop :=
  b.conv1w = (fun _ _ _ _ => 0) ∧ b.conv1b = (fun _ => 0) ∧
  b.conv2w = (fun _ _ _ _ => 0) ∧ b.conv2b = (fun _ => 0) ∧
  b.conv3w = (fun _ _ _ _ => 0) ∧ b.conv3b = (fun _ => 0) ∧
  b.scaw = (fun _ _ _ _ => 0) ∧ b.scab = (fun _ => 0) ∧
  b.norm1.weight = (fun _ => 0) ∧ b.norm1.bias = (fun _ => 0) ∧
  b.beta = (fun _ => 0)

/-- All learned parameters of a `PseudoTemporalConvBlock` set to zero. -/
def PseudoTemporalConvBlock.zeroParams (b : PseudoTemporalConvBlock) : Prop :=
  b.conv1w = (fun _ _ _ _ => 0) ∧ b.conv1b = (fun _ => 0) ∧
  b.conv2w = (fun _ _ _ _ => 0) ∧ b.conv2b = (fun _ => 0) ∧
  b.norm1.weight = (fun _ => 0) ∧ b.norm1.bias = (fun _ => 0) ∧
  b.beta = (fun _ => 0)

theorem NAFBlock.forward_shape_eq (blk : NAFBlock) (inp : Tensor)
    (hc : inp.c = blk.c) : (blk.forward inp).sameShape inp := by
  unfold Tensor.sameShape
  refine ⟨?_, ?_, ?_, ?_⟩ <;> simp [NAFBlock.forward, hc]

theorem NAFBlockHalf.forward_shape_preserved (blk : NAFBlockHalf) (inp : Tensor)
    (hc : inp.c = blk.c) : (blk.forward inp).sameShape inp := by
  unfold Tensor.sameShape
  refine ⟨?_, ?_, ?_, ?_⟩ <;> simp [NAFBlockHalf.forward, hc]

theorem PseudoTemporalConvBlock.forward_keeps_shape (blk : PseudoTemporalConvBlock)
    (inp : Tensor) (hc : inp.c = blk.c) : (blk.forward inp).sameShape inp := by
  unfold Tensor.sameShape
  refine ⟨?_, ?_, ?_, ?_⟩ <;> simp [PseudoTemporalConvBlock.forward, hc]

/-- C7: for every block of the NAFBlock family (`NAFBlock`, `NAFBlockHalf`,
`PseudoTemporalConvBlock`) and every input with the constructed channel
count, the output shape equals the input shape; and with all learned
weights zero (in particular `beta`/`gamma`) the forward pass equals the
input exactly — the residual path is a pure addition. -/
theorem nafFamily_residual_c7 :
    (∀ (blk : NAFBlock) (inp : Tensor), inp.c = blk.c →
      2 ∣ blk.c * blk.DW_Expand → 2 ∣ blk.FFN_Expand * blk.c →
      (blk.forward inp).sameShape inp ∧
        (blk.zeroParams → (blk.forward inp).teq inp)) ∧
    (∀ (blk : NAFBlockHalf) (inp : Tensor), inp.c = blk.c →
      2 ∣ blk.c * blk.DW_Expand →
      (blk.forward inp).sameShape inp ∧
        (blk.zeroParams → (blk.forward inp).teq inp)) ∧
    (∀ (blk : PseudoTemporalConvBlock) (inp : Tensor), inp.c = blk.c →
      2 ∣ blk.FFN_Expand * blk.c →
      (blk.forward inp).sameShape inp ∧
        (blk.zeroParams → (blk.forward inp).teq inp)) := by
  refine ⟨fun blk inp hc _ _ => ⟨NAFBlock.forward_shape_eq blk inp hc, fun hz => ?_⟩,
    fun blk inp hc _ => ⟨NAFBlockHalf.forward_shape_preserved blk inp hc, fun hz => ?_⟩,
    fun blk inp hc _ => ⟨PseudoTemporalConvBlock.forward_keeps_shape blk inp hc, fun hz => ?_⟩⟩
  · obtain ⟨-, -, -, -, -, -, -, -, -, -, -, -, -, -, -, -, hβ, hγ⟩ := hz
    have hsh := NAFBlock.forward_shape_eq blk inp hc
    refine ⟨hsh, fun i j k l hi hj hk hl => ?_⟩
    rw [hsh.1] at hi
    rw [hsh.2.1] at hj
    rw [hsh.2.2.1] at hk
    rw [hsh.2.2.2] at hl
    simp only [NAFBlock.forward]
    rw [hβ, hγ]
    exact double_residual_zero inp _ _ blk.c blk.c i j k l hi hj hk hl
  · obtain ⟨-, -, -, -, -, -, -, -, -, -, hβ⟩ := hz
    have hsh := NAFBlockHalf.forward_shape_preserved blk inp hc
    refine ⟨hsh, fun i j k l hi hj hk hl => ?_⟩
    rw [hsh.1] at hi
    rw [hsh.2.1] at hj
    rw [hsh.2.2.1] at hk
    rw [hsh.2.2.2] at hl
    simp only [NAFBlockHalf.forward]
    rw [hβ]
    exact single_residual_zero inp _ blk.c i j k l hi hj hk hl
  · obtain ⟨-, -, -, -, -, -, hβ⟩ := hz
    have hsh := PseudoTemporalConvBlock.forward_keeps_shape blk inp hc
    refine ⟨hsh, fun i j k l hi hj hk hl => ?_⟩
    rw [hsh.1] at hi
    rw [hsh.2.1] at hj
    rw [hsh.2.2.1] at hk
    rw [hsh.2.2.2] at hl
    simp only [PseudoTemporalConvBlock.forward]
    rw [hβ]
    exact single_residual_zero inp _ blk.c i j k l hi hj hk hl

/-- Concrete zero-weight blocks for the C7 witness. -/
def zeroNAFBlock : NAFBlock :=
  ⟨8, 2, 2,
   fun _ _ _ _ => 0, fun _ => 0,
   fun _ _ _ _ => 0, fun _ => 0,
   fun _ _ _ _ => 0, fun _ => 0,
   fun _ _ _ _ => 0, fun _ => 0,
   fun _ _ _ _ => 0, fun _ => 0,
   fun _ _ _ _ => 0, fun _ => 0,
   zeroLN, zeroLN, fun _ => 0, fun _ => 0⟩

def zeroNAFBlockHalf : NAFBlockHalf :=
  ⟨8, 2, 2,
   fun _ _ _ _ => 0, fun _ => 0,
   fun _ _ _ _ => 0, fun _ => 0,
   fun _ _ _ _ => 0, fun _ => 0,
   fun _ _ _ _ => 0, fun _ => 0,
   zeroLN, fun _ => 0⟩

def zeroPTCBlock : PseudoTemporalConvBlock :=
  ⟨8, 2,
   fun _ _ _ _ => 0, fun _ => 0,
   fun _ _ _ _ => 0, fun _ => 0,
   zeroLN, fun _ => 0⟩

/-- Witness for C7 at the three concrete zero-weight blocks. -/
theorem nafFamily_residual_c7_witness :
    ((zeroNAFBlock.forward frameEx).sameShape frameEx ∧
      (zeroNAFBlock.forward frameEx).teq frameEx) ∧
    ((zeroNAFBlockHalf.forward frameEx).sameShape frameEx ∧
      (zeroNAFBlockHalf.forward frameEx).teq frameEx) ∧
    ((zeroPTCBlock.forward frameEx).sameShape frameEx ∧
      (zeroPTCBlock.forward frameEx).teq frameEx) := by
  have h1 := nafFamily_residual_c7.1 zeroNAFBlock frameEx rfl (by decide) (by decide)
  have h2 := nafFamily_residual_c7.2.1 zeroNAFBlockHalf frameEx rfl (by decide)
  have h3 := nafFamily_residual_c7.2.2 zeroPTCBlock frameEx rfl (by decide)
  exact ⟨⟨h1.1, h1.2 ⟨rfl, rfl, rfl, rfl, rfl, rfl, rfl, rfl, rfl, rfl, rfl, rfl,
      rfl, rfl, rfl, rfl, rfl, rfl⟩⟩,
    ⟨h2.1, h2.2 ⟨rfl, rfl, rfl, rfl, rfl, rfl, rfl, rfl, rfl, rfl, rfl⟩⟩,
    ⟨h3.1, h3.2 ⟨rfl, rfl, rfl, rfl, rfl, rfl, rfl⟩⟩⟩
